import Mathlib

/-
Verification of the procedural 2D rig animation core (mesh generation,
deformers, physics chains) against its natural-language specification.

Modelling conventions:
* JavaScript numbers are modelled as exact rationals (ℚ) where the source
  performs only field arithmetic, comparisons, floor/ceil/round and clamping,
  and as real numbers (ℝ) where the source uses transcendental functions
  (cos, sin, atan2, sqrt).  IEEE-754 rounding of literals (0.6, 1e-6, ...)
  and of Float32Array storage is idealised away: literals denote their exact
  mathematical value.
* A JavaScript NaN (which arises in the deformer code from out-of-bounds
  typed-array reads: `arr[i]` is `undefined` out of bounds and any arithmetic
  on `undefined` yields NaN) is modelled by `none` in `Option ℚ`; finite
  values are `some q`.  NaN is absorbing for addition and multiplication,
  exactly as in JavaScript.
* The third-party Delaunator library (an external npm dependency, not part of
  this repository) is modelled as an explicit function parameter `delaunay`
  producing index triples; its documented contract (all returned indices are
  in range of the input point list) appears as a hypothesis where needed.
-/

-- ============================================================
-- Deformer model (src/renderer/engine/deformer.ts)
-- ============================================================

/-- Bounding box, matching the schema shape in deformer.ts. -/
structure BBox where
  x : ℚ
  y : ℚ
  w : ℚ
  h : ℚ
deriving DecidableEq

/-- Warp mode names, matching the WarpModeType union in deformer.ts. -/
inductive WarpModeType where
  | squeeze_center
  | stretch_bottom
  | curve_ends_up
  | scale_y
deriving DecidableEq

/-- Per-row/column y-offset of the squeezeCenter mode function.
All four mode functions in deformer.ts write only the y component
(offsets at odd flat indices); the x component stays 0. -/
def squeezeCenter (_cols rows : ℕ) (bbox : BBox) (t : ℚ) (row _col : ℕ) : ℚ :=
  let maxShift := bbox.h * (1/4)
  let rowNorm : ℚ := if rows > 1 then (row : ℚ) / ((rows : ℚ) - 1) else 1/2
  let squeeze := ((1:ℚ)/2 - rowNorm) * (-2)
  let dy := -squeeze * maxShift * t
  dy

/-- Per-row/column y-offset of the stretchBottom mode function. -/
def stretchBottom (_cols rows : ℕ) (bbox : BBox) (t : ℚ) (row _col : ℕ) : ℚ :=
  let maxShift := bbox.h * (3/10)
  let rowNorm : ℚ := if rows > 1 then (row : ℚ) / ((rows : ℚ) - 1) else 0
  rowNorm * maxShift * t

/-- Per-row/column y-offset of the curveEndsUp mode function. -/
def curveEndsUp (cols rows : ℕ) (bbox : BBox) (t : ℚ) (row col : ℕ) : ℚ :=
  let maxShift := bbox.h * (1/5)
  let rowNorm : ℚ := if rows > 1 then (row : ℚ) / ((rows : ℚ) - 1) else 1/2
  let rowFactor := max 0 ((rowNorm - 1/2) * 2)
  let colNorm : ℚ := if cols > 1 then (col : ℚ) / ((cols : ℚ) - 1) else 1/2
  let edgeFactor := |colNorm - 1/2| * 2
  let dy := -edgeFactor * rowFactor * maxShift * t
  dy

/-- Per-row/column y-offset of the scaleY mode function. -/
def scaleY (_cols rows : ℕ) (bbox : BBox) (t : ℚ) (row _col : ℕ) : ℚ :=
  let centerY := bbox.y + bbox.h / 2
  let scale := t * (1/50)
  let gridY := if rows > 1 then bbox.y + ((row : ℚ) / ((rows : ℚ) - 1)) * bbox.h else centerY
  let dy := (gridY - centerY) * scale
  dy

/-- Dispatch on the warp mode, as the switch in computeWarpOffsets does. -/
def modeOffsetY : WarpModeType → ℕ → ℕ → BBox → ℚ → ℕ → ℕ → ℚ
  | .squeeze_center => squeezeCenter
  | .stretch_bottom => stretchBottom
  | .curve_ends_up => curveEndsUp
  | .scale_y => scaleY

/-- computeWarpOffsets: flat [dx0, dy0, dx1, dy1, ...] array of length
cols * rows * 2.  The source allocates a zero array and each mode function
writes the y entry (flat index (row * cols + col) * 2 + 1) for every
row < rows, col < cols; x entries stay 0.  The equivalent per-index form:
odd index n corresponds to row = (n / 2) / cols, col = (n / 2) % cols. -/
def computeWarpOffsets (cols rows : ℕ) (bbox : BBox) (mode : WarpModeType) (t : ℚ) : List ℚ :=
  (List.range (cols * rows * 2)).map fun n =>
    if n % 2 = 1 then modeOffsetY mode cols rows bbox t ((n / 2) / cols) ((n / 2) % cols) else 0

/-- JavaScript number that may be NaN: `none` is NaN, `some q` is finite. -/
abbrev JsNum := Option ℚ

/-- JavaScript addition; NaN is absorbing. -/
def jadd : JsNum → JsNum → JsNum
  | some a, some b => some (a + b)
  | _, _ => none

/-- JavaScript multiplication restricted to finite-or-NaN values; NaN is
absorbing (in particular 0 * NaN = NaN, as in JavaScript). -/
def jmul : JsNum → JsNum → JsNum
  | some a, some b => some (a * b)
  | _, _ => none

/-- Typed-array read: out-of-bounds (negative or past the end) yields
`undefined`, which behaves as NaN in arithmetic, hence `none`. -/
def jsRead (l : List ℚ) (i : ℤ) : JsNum :=
  if i < 0 then none else l[i.toNat]?

/-- WarpDeformer runtime configuration (gridSize, bbox, mode). -/
structure WarpDeformer where
  cols : ℕ
  rows : ℕ
  bbox : BBox
  mode : WarpModeType

/-- Body of the per-vertex loop of WarpDeformer.apply (deformer.ts lines
151-186): map the vertex into grid-cell coordinates, locate the containing
cell (clamped), and bilinearly interpolate the four corner offsets. -/
def warpVertex (cols rows : ℕ) (bbox : BBox) (offsets : List ℚ) (v : ℚ × ℚ) :
    JsNum × JsNum :=
  let vx := v.1
  let vy := v.2
  let gx := ((vx - bbox.x) / bbox.w) * ((cols : ℚ) - 1)
  let gy := ((vy - bbox.y) / bbox.h) * ((rows : ℚ) - 1)
  let col0 : ℤ := max 0 (min ((cols : ℤ) - 2) ⌊gx⌋)
  let row0 : ℤ := max 0 (min ((rows : ℤ) - 2) ⌊gy⌋)
  let col1 := col0 + 1
  let row1 := row0 + 1
  let fx := max 0 (min 1 (gx - (col0 : ℚ)))
  let fy := max 0 (min 1 (gy - (row0 : ℚ)))
  let i00 := (row0 * (cols : ℤ) + col0) * 2
  let i10 := (row0 * (cols : ℤ) + col1) * 2
  let i01 := (row1 * (cols : ℤ) + col0) * 2
  let i11 := (row1 * (cols : ℤ) + col1) * 2
  let w00 := (1 - fx) * (1 - fy)
  let w10 := fx * (1 - fy)
  let w01 := (1 - fx) * fy
  let w11 := fx * fy
  let ox := jadd (jadd (jadd (jmul (some w00) (jsRead offsets i00))
                             (jmul (some w10) (jsRead offsets i10)))
                       (jmul (some w01) (jsRead offsets i01)))
                 (jmul (some w11) (jsRead offsets i11))
  let oy := jadd (jadd (jadd (jmul (some w00) (jsRead offsets (i00 + 1)))
                             (jmul (some w10) (jsRead offsets (i10 + 1))))
                       (jmul (some w01) (jsRead offsets (i01 + 1))))
                 (jmul (some w11) (jsRead offsets (i11 + 1)))
  let out := (jadd (some vx) ox, jadd (some vy) oy)
  out

/-- WarpDeformer.apply: bilinear interpolation of the four surrounding
control-point offsets, added to each vertex.  Mirrors deformer.ts lines
147-189; vertex buffers are lists of (x, y) pairs and each output component
is a JsNum because the corner reads can be out of bounds for grids with a
single row or column. -/
def WarpDeformer.apply (d : WarpDeformer) (vertices : List (ℚ × ℚ)) (paramValue : ℚ) :
    List (JsNum × JsNum) :=
  let offsets := computeWarpOffsets d.cols d.rows d.bbox d.mode paramValue
  vertices.map (warpVertex d.cols d.rows d.bbox offsets)

/-- RotateDeformer runtime configuration. -/
structure RotateDeformer where
  originX : ℝ
  originY : ℝ
  childrenFollow : Bool

/-- RotateDeformer.apply: rotate every vertex about the origin by
paramValue degrees (deformer.ts lines 207-221). -/
noncomputable def RotateDeformer.apply (r : RotateDeformer) (vertices : List (ℝ × ℝ))
    (paramValue : ℝ) : List (ℝ × ℝ) :=
  let theta := paramValue * (Real.pi / 180)
  let c := Real.cos theta
  let s := Real.sin theta
  vertices.map fun v =>
    let dx := v.1 - r.originX
    let dy := v.2 - r.originY
    (r.originX + dx * c - dy * s, r.originY + dx * s + dy * c)

/-- RotateDeformer.getTransform: the transform exposed for child parts. -/
noncomputable def RotateDeformer.getTransform (r : RotateDeformer) (paramValue : ℝ) :
    ℝ × ℝ × ℝ × ℝ :=
  let theta := paramValue * (Real.pi / 180)
  (Real.cos theta, Real.sin theta, r.originX, r.originY)

-- ============================================================
-- Physics chain (src/renderer/engine/physics.ts)
-- ============================================================

/-- PhysicsChain state: Verlet integration pendulum.  points and oldPoints
are lists of (x, y) pairs; the well-formed states produced by the
constructor have points.length = oldPoints.length = segments + 1. -/
structure PhysicsChain where
  segments : ℕ
  segmentLength : ℝ
  damping : ℝ
  gravity : ℝ × ℝ
  points : List (ℝ × ℝ)
  oldPoints : List (ℝ × ℝ)

/-- The PhysicsChain constructor: a straight vertical line hanging from the
anchor, with oldPoints equal to points. -/
noncomputable def mkPhysicsChain (anchor : ℝ × ℝ) (length : ℝ) (segments : ℕ)
    (damping : ℝ) (gravity : ℝ × ℝ) : PhysicsChain :=
  let segmentLength := length / (segments : ℝ)
  let pts := (List.range (segments + 1)).map fun i =>
    (anchor.1, anchor.2 + (i : ℝ) * segmentLength)
  { segments := segments, segmentLength := segmentLength, damping := damping,
    gravity := gravity, points := pts, oldPoints := pts }

/-- One Verlet integration step for a free (non-anchor) point: current
position paired with its old position. -/
noncomputable def verletFree (damping : ℝ) (gravity : ℝ × ℝ) (dt2 : ℝ)
    (co : (ℝ × ℝ) × (ℝ × ℝ)) : ℝ × ℝ :=
  let c := co.1
  let o := co.2
  (c.1 + (c.1 - o.1) * damping + gravity.1 * dt2,
   c.2 + (c.2 - o.2) * damping + gravity.2 * dt2)

/-- PhysicsChain.constrain on a points list (physics.ts lines 100-129):
distance constraint between points i and j.  Reads use the list with default
(0, 0); the calls made by update always stay within bounds on well-formed
states. -/
noncomputable def constrainPts (segmentLength : ℝ) (pts : List (ℝ × ℝ)) (i j : ℕ) :
    List (ℝ × ℝ) :=
  let p := pts.getD i (0, 0)
  let q := pts.getD j (0, 0)
  let dx := q.1 - p.1
  let dy := q.2 - p.2
  let dist := Real.sqrt (dx * dx + dy * dy)
  if dist < 1e-10 then pts
  else
    let diff := (dist - segmentLength) / dist
    let offsetX := dx * (1/2) * diff
    let offsetY := dy * (1/2) * diff
    if i = 0 then (pts.set j (q.1 - offsetX * 2, q.2 - offsetY * 2))
    else if j = 0 then (pts.set i (p.1 + offsetX * 2, p.2 + offsetY * 2))
    else ((pts.set i (p.1 + offsetX, p.2 + offsetY)).set j (q.1 - offsetX, q.2 - offsetY))

/-- PhysicsChain.update (physics.ts lines 52-93): pin point 0 to the anchor,
Verlet-integrate the free points, store the pre-integration positions as
oldPoints (with oldPoints[0] = anchor, which together equal the pinned
points list), then run 5 iterations of distance constraints over all
adjacent pairs (i, i+1). -/
noncomputable def PhysicsChain.update (ch : PhysicsChain) (dt : ℝ) (anchorPos : ℝ × ℝ) :
    PhysicsChain :=
  let dt2 := dt * dt
  let pts0 := ch.points.set 0 anchorPos
  let integrated :=
    pts0.take 1 ++ ((pts0.drop 1).zip (ch.oldPoints.drop 1)).map
      (verletFree ch.damping ch.gravity dt2)
  let newOld := pts0
  let relaxed := (List.range 5).foldl
    (fun pts _ => (List.range ch.segments).foldl
      (fun pts i => constrainPts ch.segmentLength pts i (i + 1)) pts)
    integrated
  { ch with points := relaxed, oldPoints := newOld }

/-- JavaScript Math.atan2(y, x): the angle of the point (x, y) in (-pi, pi].
Signed zeros are not modelled (atan2(0, 0) = 0, the JavaScript value for
positive zeros). -/
noncomputable def jsAtan2 (y x : ℝ) : ℝ :=
  if 0 < x then Real.arctan (y / x)
  else if x < 0 then
    (if 0 ≤ y then Real.arctan (y / x) + Real.pi else Real.arctan (y / x) - Real.pi)
  else if 0 < y then Real.pi / 2
  else if y < 0 then -(Real.pi / 2)
  else 0

/-- PhysicsChain.getAngle (physics.ts lines 136-141): atan2(dx, dy) between
the first and last points, converted to degrees. -/
noncomputable def PhysicsChain.getAngle (ch : PhysicsChain) : ℝ :=
  let lastP := ch.points.getD ch.segments (0, 0)
  let firstP := ch.points.getD 0 (0, 0)
  let dx := lastP.1 - firstP.1
  let dy := lastP.2 - firstP.2
  jsAtan2 dx dy * (180 / Real.pi)

-- ============================================================
-- Mesh generation (meshgen module, src/unnamed/part_010)
-- ============================================================

/-- Opacity mask: an ImageData-like RGBA byte grid.  data is indexed as the
flat RGBA byte array of the source; the alpha of pixel (x, y) sits at
(y * width + x) * 4 + 3. -/
structure Mask where
  width : ℕ
  height : ℕ
  data : ℕ → ℕ

/-- Alpha threshold for considering a pixel solid. -/
def ALPHA_THRESHOLD : ℕ := 128

/-- Solid test with out-of-bounds treated as empty (the isSolid helper of
extractContour, and the raw solid-grid reads elsewhere, which are always
in bounds where used). -/
def isSolid (m : Mask) (x y : ℤ) : Bool :=
  if 0 ≤ x ∧ x < (m.width : ℤ) ∧ 0 ≤ y ∧ y < (m.height : ℤ) then
    decide (ALPHA_THRESHOLD ≤ m.data ((y.toNat * m.width + x.toNat) * 4 + 3))
  else false

/-- A solid pixel with at least one empty 4-neighbor: the start-pixel
condition of extractContour. -/
def hasEmptyNeighbor (m : Mask) (x y : ℤ) : Bool :=
  !isSolid m (x - 1) y || !isSolid m (x + 1) y || !isSolid m x (y - 1) || !isSolid m x (y + 1)

/-- Row-major scan for the first solid boundary pixel (extractContour lines
62-77); returns none when no such pixel exists. -/
def findStart (m : Mask) : Option (ℤ × ℤ) :=
  ((List.range m.height).flatMap fun y => (List.range m.width).map fun x => ((x : ℤ), (y : ℤ))).find?
    fun p => isSolid m p.1 p.2 && hasEmptyNeighbor m p.1 p.2

/-- Moore-neighbor direction vectors, clockwise from the right. -/
def mooreDx : List ℤ := [1, 1, 0, -1, -1, -1, 0, 1]

/-- Moore-neighbor direction vectors, clockwise from the right (y part). -/
def mooreDy : List ℤ := [0, 1, 1, 1, 0, -1, -1, -1]

/-- Scan the 8 neighbors clockwise starting from (dir + 5) % 8 and return the
first solid one together with its direction index. -/
def findNeighbor (m : Mask) (cx cy : ℤ) (dir : ℕ) : Option (ℤ × ℤ × ℕ) :=
  let searchDir := (dir + 5) % 8
  (List.range 8).findSome? fun i =>
    let nd := (searchDir + i) % 8
    let nx := cx + mooreDx.getD nd 0
    let ny := cy + mooreDy.getD nd 0
    if isSolid m nx ny then some (nx, ny, nd) else none

/-- The do-while tracing loop of extractContour.  fuel is the remaining step
budget maxSteps - steps at body entry; the source enters the loop with
steps = 0 and re-enters only while steps < maxSteps, so the body runs at
most maxSteps times in total (fuel values maxSteps, maxSteps - 1, ..., 1). -/
def traceLoop (m : Mask) (startX startY : ℤ) (fuel : ℕ) (cx cy : ℤ) (dir : ℕ)
    (visited contour : List (ℤ × ℤ)) : List (ℤ × ℤ) :=
  let st := if (cx, cy) ∈ visited then (visited, contour)
            else ((cx, cy) :: visited, contour ++ [(cx, cy)])
  match findNeighbor m cx cy dir with
  | none => st.2
  | some nxt =>
    if nxt.1 = startX ∧ nxt.2.1 = startY then st.2
    else
      match fuel with
      | 0 => st.2
      | fuel' + 1 =>
        if fuel' = 0 then st.2
        else traceLoop m startX startY fuel' nxt.1 nxt.2.1 nxt.2.2 st.1 st.2

/-- extractContour (part_010 lines 46-135): Moore-neighbor boundary tracing
with a step budget of 2 x mask area; empty result when no boundary pixel
exists. -/
def extractContour (m : Mask) : List (ℤ × ℤ) :=
  match findStart m with
  | none => []
  | some s => traceLoop m s.1 s.2 (m.width * m.height * 2) s.1 s.2 7 [] []

/-- Cast an integer pixel coordinate pair to a rational point. -/
def intPt (p : ℤ × ℤ) : ℚ × ℚ := ((p.1 : ℚ), (p.2 : ℚ))

/-- Squared perpendicular distance from p to segment a-b.  The source
computes the square root; every use compares distances, and squaring is
strictly monotone on nonnegative reals, so squared distances are compared
against squared thresholds throughout. -/
def pointToSegmentDistSq (p a b : ℚ × ℚ) : ℚ :=
  let dx := b.1 - a.1
  let dy := b.2 - a.2
  let lenSq := dx * dx + dy * dy
  if lenSq = 0 then
    let ex := p.1 - a.1
    let ey := p.2 - a.2
    ex * ex + ey * ey
  else
    let t := max 0 (min 1 (((p.1 - a.1) * dx + (p.2 - a.2) * dy) / lenSq))
    let projX := a.1 + t * dx
    let projY := a.2 + t * dy
    let ex := p.1 - projX
    let ey := p.2 - projY
    ex * ex + ey * ey

/-- Douglas-Peucker simplification with explicit recursion fuel.  The
recursion depth is bounded by the contour length whenever epsilon is
nonnegative (each split index lies strictly inside the polyline, so both
halves are shorter); generateMesh always passes epsilon = 2.  Points are
integer pixels, as produced by extractContour and consumed by
sampleInterior; distances are computed over the rationals.  The squared
comparisons maxDistSq > md and maxDist > epsilon mirror the source
comparisons of square roots (for negative epsilon the condition
maxDist > epsilon is always true since maxDist is nonnegative). -/
def simplifyContourF (fuel : ℕ) (contour : List (ℤ × ℤ)) (epsilon : ℚ) : List (ℤ × ℤ) :=
  if contour.length ≤ 2 then contour
  else
    let first := contour.getD 0 (0, 0)
    let last := contour.getD (contour.length - 1) (0, 0)
    let md := (List.range (contour.length - 2)).foldl
      (fun acc k =>
        let i := k + 1
        let d := pointToSegmentDistSq (intPt (contour.getD i (0, 0))) (intPt first) (intPt last)
        if d > acc.1 then (d, i) else acc)
      ((0 : ℚ), (0 : ℕ))
    if epsilon < 0 ∨ md.1 > epsilon ^ 2 then
      match fuel with
      | 0 => contour
      | fuel' + 1 =>
        let left := simplifyContourF fuel' (contour.take (md.2 + 1)) epsilon
        let right := simplifyContourF fuel' (contour.drop md.2) epsilon
        left.dropLast ++ right
    else [first, last]

/-- simplifyContour entry point (fuel = contour length suffices for any
nonnegative epsilon). -/
def simplifyContour (contour : List (ℤ × ℤ)) (epsilon : ℚ) : List (ℤ × ℤ) :=
  simplifyContourF contour.length contour epsilon

/-- The IEEE-754 double value of Math.SQRT2 as an exact rational. -/
def jsSQRT2 : ℚ := 6369051672525773 / 4503599627370496

/-- JavaScript Math.round: round half toward positive infinity. -/
def jsRound (q : ℚ) : ℤ := ⌊q + 1/2⌋

/-- Boundary band width used by sampleInterior:
max(5, round(min(width, height) * 0.05)). -/
def boundaryWidth (m : Mask) : ℤ :=
  max 5 (jsRound ((min m.width m.height : ℕ) * (5/100 : ℚ)))

/-- Bounds test for a pixel coordinate. -/
def inMask (m : Mask) (x y : ℤ) : Bool :=
  decide (0 ≤ x ∧ x < (m.width : ℤ) ∧ 0 ≤ y ∧ y < (m.height : ℤ))

/-- The fallback boundary-pixel condition of sampleInterior (used when no
contour points are supplied): a solid pixel at the image edge or with an
empty 4-neighbor. -/
def isBoundaryPixel (m : Mask) (x y : ℤ) : Bool :=
  isSolid m x y &&
    (decide (x = 0) || decide (x = (m.width : ℤ) - 1) ||
     decide (y = 0) || decide (y = (m.height : ℤ) - 1) ||
     !isSolid m (x - 1) y || !isSolid m (x + 1) y ||
     !isSolid m x (y - 1) || !isSolid m x (y + 1))

/-- Membership in the near-boundary band: the marking loops of sampleInterior
paint, for each center point (a supplied contour point, or any fallback
boundary pixel), every in-bounds pixel of the disc of radius boundaryWidth
around it.  A pixel is in the band iff it is in bounds and within the disc
of some center. -/
def nearBoundary (m : Mask) (contourPts : Option (List (ℤ × ℤ))) (px py : ℤ) : Bool :=
  let bw := boundaryWidth m
  let fromContour := fun (cps : List (ℤ × ℤ)) =>
    inMask m px py && cps.any fun c =>
      decide ((px - c.1) * (px - c.1) + (py - c.2) * (py - c.2) ≤ bw * bw)
  let fallback :=
    inMask m px py && ((List.range m.height).any fun y => (List.range m.width).any fun x =>
      isBoundaryPixel m (x : ℤ) (y : ℤ) &&
      decide ((px - (x : ℤ)) * (px - (x : ℤ)) + (py - (y : ℤ)) * (py - (y : ℤ)) ≤ bw * bw))
  match contourPts with
  | some cps => if cps.length > 0 then fromContour cps else fallback
  | none => fallback

/-- The linear congruential RNG of sampleInterior:
seed = (seed * 1664525 + 1013904223) & 0x7fffffff.  The multiply stays below
2^53 so the JavaScript double arithmetic is exact, and masking with
0x7fffffff keeps the low 31 bits, i.e. reduction mod 2^31. -/
def lcgNext (seed : ℕ) : ℕ := (seed * 1664525 + 1013904223) % 2147483648

/-- State threaded through the sampling loops: accepted points, the
acceleration grid (cell coordinates to point index; -1 entries are none),
and the RNG seed. -/
structure SampState where
  points : List (ℚ × ℚ)
  grid : ℤ × ℤ → Option ℕ
  seed : ℕ

/-- addPoint of sampleInterior: accept the candidate unless a previously
accepted point within the (boundary-adaptive) minimum spacing lies in a
neighboring acceleration-grid cell. -/
def addPoint (m : Mask) (cps : Option (List (ℤ × ℤ))) (density cellSize : ℚ)
    (gridW gridH : ℤ) (st : SampState) (x y : ℚ) : SampState :=
  let gi := ⌊x / cellSize⌋
  let gj := ⌊y / cellSize⌋
  let minDist := if nearBoundary m cps ⌊x⌋ ⌊y⌋ then density * (1/2) else density
  let minDistSq := minDist * minDist
  let offs : List ℤ := [-2, -1, 0, 1, 2]
  let conflict := offs.any fun dj => offs.any fun di =>
    let ni := gi + di
    let nj := gj + dj
    if ni < 0 ∨ gridW ≤ ni ∨ nj < 0 ∨ gridH ≤ nj then false
    else
      match st.grid (ni, nj) with
      | none => false
      | some pidx =>
        let p := st.points.getD pidx (0, 0)
        let ddx := x - p.1
        let ddy := y - p.2
        decide (ddx * ddx + ddy * ddy < minDistSq)
  if conflict then st
  else
    { points := st.points ++ [(x, y)],
      grid := fun c => if c = (gi, gj) then some st.points.length else st.grid c,
      seed := st.seed }

/-- The values taken by a JavaScript loop `for (v = 0; v < bound; v += step)`
with exact rational arithmetic: k * step for k = 0, 1, ... while below the
bound.  For step <= 0 the JavaScript loop would not terminate; callers
always pass step > 0. -/
def qRange (bound : ℕ) (step : ℚ) : List ℚ :=
  if 0 < step then (List.range ⌈(bound : ℚ) / step⌉.toNat).map (fun k => (k : ℚ) * step)
  else []

/-- sampleInterior (part_010 lines 200-319): jittered stratified candidate
generation filtered by Poisson-disk acceptance.  The first parameter models
the ambient RNG state a caller could thread between calls; the source
re-seeds its RNG to the constant 42 on entry (`let seed = 42`), so this
parameter is never read and sampling is reproducible for identical
mask/density/contour inputs. -/
def sampleInterior (_rngState : ℕ) (m : Mask) (density : ℚ)
    (contourPts : Option (List (ℤ × ℤ))) : List (ℚ × ℚ) :=
  let cellSize := density / jsSQRT2
  let gridW := ⌈(m.width : ℚ) / cellSize⌉
  let gridH := ⌈(m.height : ℚ) / cellSize⌉
  let step := density * (1/2)
  let init : SampState := { points := [], grid := fun _ => none, seed := 42 }
  let final := (qRange m.height step).foldl (fun st y =>
    (qRange m.width step).foldl (fun st x =>
      let s1 := lcgNext st.seed
      let r1 : ℚ := (s1 : ℚ) / 2147483647
      let s2 := lcgNext s1
      let r2 : ℚ := (s2 : ℚ) / 2147483647
      let jx := x + (r1 - 1/2) * step
      let jy := y + (r2 - 1/2) * step
      let st2 : SampState := { st with seed := s2 }
      let ix := ⌊jx⌋
      let iy := ⌊jy⌋
      if ix < 0 ∨ (m.width : ℤ) ≤ ix ∨ iy < 0 ∨ (m.height : ℤ) ≤ iy then st2
      else if !isSolid m ix iy then st2
      else addPoint m contourPts density cellSize gridW gridH st2 jx jy) st) init
  final.points

/-- triangulate (part_010 lines 327-382): combine boundary and interior
points, run the (external, parameterized) Delaunay triangulator, and discard
triangles whose centroid is outside the mask.  Fewer than 3 points yield
zero triangles. -/
def triangulate (delaunay : List (ℚ × ℚ) → List (ℕ × ℕ × ℕ))
    (boundaryPts : List (ℤ × ℤ)) (interiorPts : List (ℚ × ℚ)) (mask : Option Mask) :
    List (ℚ × ℚ) × List (ℕ × ℕ × ℕ) :=
  let allPts := boundaryPts.map intPt ++ interiorPts
  if allPts.length < 3 then (allPts, [])
  else
    let rawTris := delaunay allPts
    let triangles := rawTris.filter fun t =>
      match mask with
      | none => true
      | some m =>
        let a := allPts.getD t.1 (0, 0)
        let b := allPts.getD t.2.1 (0, 0)
        let c := allPts.getD t.2.2 (0, 0)
        let cx := (a.1 + b.1 + c.1) / 3
        let cy := (a.2 + b.2 + c.2) / 3
        let ix := ⌊cx⌋
        let iy := ⌊cy⌋
        if ix < 0 ∨ (m.width : ℤ) ≤ ix ∨ iy < 0 ∨ (m.height : ℤ) ≤ iy then false
        else isSolid m ix iy
    (allPts, triangles)

/-- computeUVs (part_010 lines 390-399): normalize vertices against the
texture bounding box, clamped into [0, 1]. -/
def computeUVs (vertices : List (ℚ × ℚ)) (textureBbox : BBox) : List (ℚ × ℚ) :=
  vertices.map fun v =>
    (max 0 (min 1 ((v.1 - textureBbox.x) / textureBbox.w)),
     max 0 (min 1 ((v.2 - textureBbox.y) / textureBbox.h)))

/-- Runtime mesh record (vertices, uvs, triangles). -/
structure Mesh where
  vertices : List (ℚ × ℚ)
  uvs : List (ℚ × ℚ)
  triangles : List (ℕ × ℕ × ℕ)
deriving DecidableEq

/-- Validation error messages of validateMesh, as tags carrying the counts
and indices interpolated into the source strings.  Only the tooFew and
tooMany messages contain the substrings `Too few` and `Too many` tested by
generateMesh. -/
inductive MeshError where
  | tooFew (n : ℕ)
  | tooMany (n : ℕ)
  | triOutOfBounds (i : ℕ)
  | degenerate (n : ℕ)
  | uvOutOfRange (n : ℕ)
deriving DecidableEq

/-- The `Too few` substring test of generateMesh on an error message. -/
def MeshError.isTooFew : MeshError → Bool
  | .tooFew _ => true
  | _ => false

/-- The `Too many` substring test of generateMesh on an error message. -/
def MeshError.isTooMany : MeshError → Bool
  | .tooMany _ => true
  | _ => false

/-- Minimum acceptable vertex count. -/
def MIN_VERTICES : ℕ := 50

/-- Maximum acceptable vertex count. -/
def MAX_VERTICES : ℕ := 500

/-- Degenerate-triangle test of validateMesh for an in-bounds triangle:
a near-zero shortest edge or an aspect ratio above 10.  The source compares
square-rooted edge lengths; the equivalent squared comparisons are used
(shortest < 1e-6 iff shortestSq < 1e-12; longest / shortest > 10 iff
longestSq > 100 * shortestSq, the guard having ensured shortest > 0). -/
def degenTriangle (vertices : List (ℚ × ℚ)) (t : ℕ × ℕ × ℕ) : Bool :=
  let a := vertices.getD t.1 (0, 0)
  let b := vertices.getD t.2.1 (0, 0)
  let c := vertices.getD t.2.2 (0, 0)
  let abSq := (b.1 - a.1) * (b.1 - a.1) + (b.2 - a.2) * (b.2 - a.2)
  let bcSq := (c.1 - b.1) * (c.1 - b.1) + (c.2 - b.2) * (c.2 - b.2)
  let caSq := (a.1 - c.1) * (a.1 - c.1) + (a.2 - c.2) * (a.2 - c.2)
  let longestSq := max abSq (max bcSq caSq)
  let shortestSq := min abSq (min bcSq caSq)
  if shortestSq < 1 / 1000000000000 then true
  else decide (longestSq > 100 * shortestSq)

/-- validateMesh (part_010 lines 420-481): vertex-count window, per-triangle
bounds errors, degenerate-triangle count, and UV range count, in the order
the source pushes them. -/
def validateMesh (mesh : Mesh) : List MeshError :=
  let n := mesh.vertices.length
  let countErrs := (if n < MIN_VERTICES then [MeshError.tooFew n] else [])
    ++ (if n > MAX_VERTICES then [MeshError.tooMany n] else [])
  let triErrs := (List.range mesh.triangles.length).filterMap fun i =>
    let t := mesh.triangles.getD i (0, 0, 0)
    if n ≤ t.1 ∨ n ≤ t.2.1 ∨ n ≤ t.2.2 then some (MeshError.triOutOfBounds i) else none
  let degenerateCount := mesh.triangles.countP fun t =>
    decide (t.1 < n ∧ t.2.1 < n ∧ t.2.2 < n) && degenTriangle mesh.vertices t
  let degenErrs := if degenerateCount > 0 then [MeshError.degenerate degenerateCount] else []
  let uvCount := mesh.uvs.countP fun uv =>
    decide (uv.1 < -(1/100) ∨ uv.1 > 101/100 ∨ uv.2 < -(1/100) ∨ uv.2 > 101/100)
  let uvErrs := if uvCount > 0 then [MeshError.uvOutOfRange uvCount] else []
  countErrs ++ triErrs ++ degenErrs ++ uvErrs

/-- Default contour simplification epsilon. -/
def DEFAULT_EPSILON : ℚ := 2

/-- Default interior sampling density. -/
def DEFAULT_DENSITY : ℚ := 8

/-- One attempt body of the generateMesh retry loop: sample the interior,
triangulate, project UVs. -/
def attemptMesh (delaunay : List (ℚ × ℚ) → List (ℕ × ℕ × ℕ)) (rngState : ℕ) (mask : Mask)
    (textureBbox : BBox) (simplified : List (ℤ × ℤ)) (density : ℚ) : Mesh :=
  let interior := sampleInterior rngState mask density (some simplified)
  let vt := triangulate delaunay simplified interior (some mask)
  { vertices := vt.1, uvs := computeUVs vt.1 textureBbox, triangles := vt.2 }

/-- The density-adjusting retry loop of generateMesh (part_010 lines
508-529), with retriesLeft counting the attempts still allowed after the
current one (the source runs at most 3 attempts, so the entry value is 2).
A valid mesh returns immediately; a too-few failure retries with density
max(2, density * 0.6); a too-many failure retries with density * 1.5; any
other failure, or an exhausted budget, returns the current attempt. -/
def genLoop (delaunay : List (ℚ × ℚ) → List (ℕ × ℕ × ℕ)) (rngState : ℕ) (mask : Mask)
    (textureBbox : BBox) (simplified : List (ℤ × ℤ)) (retriesLeft : ℕ) (density : ℚ) :
    Mesh :=
  let mesh := attemptMesh delaunay rngState mask textureBbox simplified density
  let validation := validateMesh mesh
  if validation = [] then mesh
  else
    match retriesLeft with
    | 0 => mesh
    | r + 1 =>
      if validation.any MeshError.isTooFew then
        genLoop delaunay rngState mask textureBbox simplified r (max 2 (density * (3/5)))
      else if validation.any MeshError.isTooMany then
        genLoop delaunay rngState mask textureBbox simplified r (density * (3/2))
      else mesh

/-- generateMesh (part_010 lines 496-533): the full pipeline with the single
hard failure (no traceable contour) and the bounded density retry loop. -/
def generateMesh (delaunay : List (ℚ × ℚ) → List (ℕ × ℕ × ℕ)) (rngState : ℕ) (mask : Mask)
    (textureBbox : BBox) : Except String Mesh :=
  let contour := extractContour mask
  if contour.length < 3 then
    Except.error "Mask contains no traceable contour (fewer than 3 boundary points)"
  else
    Except.ok (genLoop delaunay rngState mask textureBbox
      (simplifyContour contour DEFAULT_EPSILON) 2 DEFAULT_DENSITY)

-- Concrete instances used by the witnesses below.

/-- A triangulator that returns no triangles; it trivially satisfies the
index-range contract of Delaunator. -/
def emptyDelaunay : List (ℚ × ℚ) → List (ℕ × ℕ × ℕ) := fun _ => []

/-- A fully solid 3 x 1 mask; its traced boundary is the three pixels. -/
def solidRowMask : Mask := { width := 3, height := 1, data := fun _ => 255 }

/-- A fully transparent 1 x 1 mask. -/
def clearMask : Mask := { width := 1, height := 1, data := fun _ => 0 }

/-- A fully transparent 2 x 2 mask. -/
def clearMask2 : Mask := { width := 2, height := 2, data := fun _ => 0 }

/-- A concrete texture bounding box. -/
def bbox10 : BBox := { x := 0, y := 0, w := 10, h := 10 }

/-- The default mesh used to project the ok-payload out of an Except value. -/
def meshDefault : Mesh := { vertices := [], uvs := [], triangles := [] }

/-- Three concrete non-collinear boundary points. -/
def triPts : List (ℤ × ℤ) := [(0, 0), (5, 0), (0, 5)]

-- ============================================================
-- Theorems: deformer model (claims C1, C2, C6)
-- ============================================================

theorem jadd_isSome {a b : JsNum} (ha : a.isSome) (hb : b.isSome) : (jadd a b).isSome := by
  cases a <;> cases b <;> simp_all [jadd]

theorem jmul_isSome {a b : JsNum} (ha : a.isSome) (hb : b.isSome) : (jmul a b).isSome := by
  cases a <;> cases b <;> simp_all [jmul]

theorem jsRead_isSome {l : List ℚ} {i : ℤ} (h0 : 0 ≤ i) (h : i.toNat < l.length) :
    (jsRead l i).isSome := by
  rw [jsRead, if_neg (not_lt.mpr h0)]
  simp [List.getElem?_eq_getElem h]

theorem computeWarpOffsets_length (cols rows : ℕ) (bbox : BBox) (mode : WarpModeType) (t : ℚ) :
    (computeWarpOffsets cols rows bbox mode t).length = cols * rows * 2 := by
  simp [computeWarpOffsets]

theorem computeWarpOffsets_getElem? (cols rows : ℕ) (bbox : BBox) (mode : WarpModeType)
    (t : ℚ) (n : ℕ) (h : n < cols * rows * 2) :
    (computeWarpOffsets cols rows bbox mode t)[n]? =
      some (if n % 2 = 1 then
        modeOffsetY mode cols rows bbox t ((n / 2) / cols) ((n / 2) % cols) else 0) := by
  rw [computeWarpOffsets, List.getElem?_map, List.getElem?_range h, Option.map_some']

theorem modeOffsetY_zero (mode : WarpModeType) (cols rows : ℕ) (bbox : BBox) (r c : ℕ) :
    modeOffsetY mode cols rows bbox 0 r c = 0 := by
  cases mode <;>
    simp [modeOffsetY, squeezeCenter, stretchBottom, curveEndsUp, scaleY, mul_zero, zero_mul]

theorem jsRead_offsets_zero (cols rows : ℕ) (bbox : BBox) (mode : WarpModeType) {i : ℤ}
    (h0 : 0 ≤ i) (h : i.toNat < cols * rows * 2) :
    jsRead (computeWarpOffsets cols rows bbox mode 0) i = some 0 := by
  rw [jsRead, if_neg (not_lt.mpr h0), computeWarpOffsets_getElem? cols rows bbox mode 0 _ h,
    modeOffsetY_zero, ite_self]

/-- Index bounds: a cell corner (r, c) with r < rows and c < cols has both of
its flat offset indices inside the offsets array. -/
theorem cornerIdx_bounds (cols rows : ℕ) (r c : ℤ) (hr0 : 0 ≤ r) (hc0 : 0 ≤ c)
    (hr : r ≤ (rows : ℤ) - 1) (hc : c ≤ (cols : ℤ) - 1) :
    0 ≤ (r * (cols : ℤ) + c) * 2 ∧
    ((r * (cols : ℤ) + c) * 2).toNat < cols * rows * 2 ∧
    0 ≤ (r * (cols : ℤ) + c) * 2 + 1 ∧
    ((r * (cols : ℤ) + c) * 2 + 1).toNat < cols * rows * 2 := by
  have hcols0 : (0 : ℤ) ≤ (cols : ℤ) := Int.natCast_nonneg cols
  have h1 : r * (cols : ℤ) ≤ ((rows : ℤ) - 1) * (cols : ℤ) :=
    mul_le_mul_of_nonneg_right hr hcols0
  have h2 : 0 ≤ r * (cols : ℤ) := mul_nonneg hr0 hcols0
  have h3 : (r * (cols : ℤ) + c) * 2 + 1 < ((cols * rows * 2 : ℕ) : ℤ) := by
    push_cast
    nlinarith
  have h4 : 0 ≤ (r * (cols : ℤ) + c) * 2 := by positivity
  refine ⟨h4, ?_, by linarith, ?_⟩ <;> omega

theorem warpVertex_isSome (cols rows : ℕ) (bbox : BBox) (offsets : List ℚ) (v : ℚ × ℚ)
    (hc : 2 ≤ cols) (hr : 2 ≤ rows) (hlen : offsets.length = cols * rows * 2) :
    (warpVertex cols rows bbox offsets v).1.isSome ∧
    (warpVertex cols rows bbox offsets v).2.isSome := by
  have hc2 : (0 : ℤ) ≤ (cols : ℤ) - 2 := by
    have := Int.ofNat_le.mpr hc; omega
  have hr2 : (0 : ℤ) ≤ (rows : ℤ) - 2 := by
    have := Int.ofNat_le.mpr hr; omega
  simp only [warpVertex]
  set c0 : ℤ := max 0 (min ((cols : ℤ) - 2) ⌊((v.1 - bbox.x) / bbox.w) * ((cols : ℚ) - 1)⌋)
    with hc0def
  set r0 : ℤ := max 0 (min ((rows : ℤ) - 2) ⌊((v.2 - bbox.y) / bbox.h) * ((rows : ℚ) - 1)⌋)
    with hr0def
  have hc0 : 0 ≤ c0 := le_max_left _ _
  have hr0 : 0 ≤ r0 := le_max_left _ _
  have hc1 : c0 ≤ (cols : ℤ) - 2 := max_le hc2 (min_le_left _ _)
  have hr1 : r0 ≤ (rows : ℤ) - 2 := max_le hr2 (min_le_left _ _)
  have b00 := cornerIdx_bounds cols rows r0 c0 hr0 hc0 (by omega) (by omega)
  have b10 := cornerIdx_bounds cols rows r0 (c0 + 1) hr0 (by omega) (by omega) (by omega)
  have b01 := cornerIdx_bounds cols rows (r0 + 1) c0 (by omega) hc0 (by omega) (by omega)
  have b11 := cornerIdx_bounds cols rows (r0 + 1) (c0 + 1) (by omega) (by omega) (by omega)
    (by omega)
  refine ⟨?_, ?_⟩ <;>
    exact jadd_isSome (by simp)
      (jadd_isSome
        (jadd_isSome
          (jadd_isSome
            (jmul_isSome (by simp) (jsRead_isSome (by omega) (by omega)))
            (jmul_isSome (by simp) (jsRead_isSome (by omega) (by omega))))
          (jmul_isSome (by simp) (jsRead_isSome (by omega) (by omega))))
        (jmul_isSome (by simp) (jsRead_isSome (by omega) (by omega))))

theorem warpVertex_zero_id (cols rows : ℕ) (bbox : BBox) (mode : WarpModeType) (v : ℚ × ℚ)
    (hc : 2 ≤ cols) (hr : 2 ≤ rows) :
    warpVertex cols rows bbox (computeWarpOffsets cols rows bbox mode 0) v =
      (some v.1, some v.2) := by
  have hc2 : (0 : ℤ) ≤ (cols : ℤ) - 2 := by
    have := Int.ofNat_le.mpr hc; omega
  have hr2 : (0 : ℤ) ≤ (rows : ℤ) - 2 := by
    have := Int.ofNat_le.mpr hr; omega
  simp only [warpVertex]
  set c0 : ℤ := max 0 (min ((cols : ℤ) - 2) ⌊((v.1 - bbox.x) / bbox.w) * ((cols : ℚ) - 1)⌋)
    with hc0def
  set r0 : ℤ := max 0 (min ((rows : ℤ) - 2) ⌊((v.2 - bbox.y) / bbox.h) * ((rows : ℚ) - 1)⌋)
    with hr0def
  have hc0 : 0 ≤ c0 := le_max_left _ _
  have hr0 : 0 ≤ r0 := le_max_left _ _
  have hc1 : c0 ≤ (cols : ℤ) - 2 := max_le hc2 (min_le_left _ _)
  have hr1 : r0 ≤ (rows : ℤ) - 2 := max_le hr2 (min_le_left _ _)
  have b00 := cornerIdx_bounds cols rows r0 c0 hr0 hc0 (by omega) (by omega)
  have b10 := cornerIdx_bounds cols rows r0 (c0 + 1) hr0 (by omega) (by omega) (by omega)
  have b01 := cornerIdx_bounds cols rows (r0 + 1) c0 (by omega) hc0 (by omega) (by omega)
  have b11 := cornerIdx_bounds cols rows (r0 + 1) (c0 + 1) (by omega) (by omega) (by omega)
    (by omega)
  rw [jsRead_offsets_zero cols rows bbox mode (by omega) (by omega),
    jsRead_offsets_zero cols rows bbox mode (by omega) (by omega),
    jsRead_offsets_zero cols rows bbox mode (by omega) (by omega),
    jsRead_offsets_zero cols rows bbox mode (by omega) (by omega),
    jsRead_offsets_zero cols rows bbox mode (by omega) (by omega),
    jsRead_offsets_zero cols rows bbox mode (by omega) (by omega),
    jsRead_offsets_zero cols rows bbox mode (by omega) (by omega),
    jsRead_offsets_zero cols rows bbox mode (by omega) (by omega)]
  simp [jadd, jmul]

/-- Claim C1 counterexample: a 1 x 1 warp grid (allowed by the schema, whose
gridSize entries are any positive integers) makes WarpDeformer.apply read the
offsets array out of bounds; 0 * undefined is NaN in JavaScript, so every
output component is NaN (modelled as none) even for a well-formed bbox and a
finite parameter value. -/
theorem warp_apply_nan_on_degenerate_grid :
    (⟨1, 1, ⟨0, 0, 1, 1⟩, .squeeze_center⟩ : WarpDeformer).apply [(0, 0)] 1 =
      [(none, none)] := by
  simp only [WarpDeformer.apply, warpVertex, List.map]
  norm_num
  have hoff : computeWarpOffsets 1 1 ⟨0, 0, 1, 1⟩ .squeeze_center 1 = [0, 0] := by
    norm_num [computeWarpOffsets, List.range_succ, modeOffsetY, squeezeCenter]
  rw [hoff]
  simp [jsRead, jadd, jmul]

/-- Claim C1 (amended: warp grids need at least 2 columns and 2 rows; with a
single row or column the bilinear corner reads go out of bounds and produce
NaN).  For every such warp deformer with a positive-size bbox, every vertex
buffer and every finite parameter value, apply returns a buffer of the same
length whose components are all finite; a pure function cannot mutate its
input, which the embedding reflects by construction.  RotateDeformer.apply
preserves the buffer length for every origin and parameter (its outputs are
cos/sin combinations of real inputs, hence finite real numbers). -/
theorem deformer_apply_total_same_length :
    (∀ (d : WarpDeformer) (vs : List (ℚ × ℚ)) (t : ℚ),
        2 ≤ d.cols → 2 ≤ d.rows → 0 < d.bbox.w → 0 < d.bbox.h →
        (d.apply vs t).length = vs.length ∧
        ∀ p ∈ d.apply vs t, p.1.isSome ∧ p.2.isSome) ∧
    (∀ (r : RotateDeformer) (vs : List (ℝ × ℝ)) (t : ℝ),
        (r.apply vs t).length = vs.length) := by
  constructor
  · intro d vs t hc hr _hw _hh
    constructor
    · simp [WarpDeformer.apply]
    · intro p hp
      simp only [WarpDeformer.apply, List.mem_map] at hp
      obtain ⟨v, _hv, rfl⟩ := hp
      exact warpVertex_isSome d.cols d.rows d.bbox _ v hc hr
        (computeWarpOffsets_length d.cols d.rows d.bbox d.mode t)
  · intro r vs t
    simp [RotateDeformer.apply]

theorem deformer_apply_total_same_length_witness :
    ((⟨2, 2, ⟨0, 0, 1, 1⟩, .squeeze_center⟩ : WarpDeformer).apply [(0, 0)] 7).length = 1 ∧
    ∀ p ∈ (⟨2, 2, ⟨0, 0, 1, 1⟩, .squeeze_center⟩ : WarpDeformer).apply [(0, 0)] 7,
      p.1.isSome ∧ p.2.isSome := by
  have h := deformer_apply_total_same_length.1
    ⟨2, 2, ⟨0, 0, 1, 1⟩, .squeeze_center⟩ [(0, 0)] 7
    (by norm_num) (by norm_num) (by norm_num) (by norm_num)
  exact h

/-- Claim C2 counterexample: at parameter value 0 a 1 x 1 warp grid still
returns NaN components (out-of-bounds corner reads), not the input buffer. -/
theorem warp_identity_fails_on_degenerate_grid :
    (⟨1, 1, ⟨0, 0, 1, 1⟩, .squeeze_center⟩ : WarpDeformer).apply [(0, 0)] 0 =
      [(none, none)] := by
  simp only [WarpDeformer.apply, warpVertex, List.map]
  norm_num
  have hoff : computeWarpOffsets 1 1 ⟨0, 0, 1, 1⟩ .squeeze_center 0 = [0, 0] := by
    norm_num [computeWarpOffsets, List.range_succ, modeOffsetY, squeezeCenter]
  rw [hoff]
  simp [jsRead, jadd, jmul]

/-- Claim C2 (amended: warp grids need at least 2 columns and 2 rows, and a
positive-size bbox, for the identity law; degenerate grids return NaN).  At
parameter value 0 every warp mode yields zero offsets everywhere, so apply
returns exactly the input vertices, and rotation by 0 degrees is exactly the
identity. -/
theorem deformer_identity_at_zero :
    (∀ (d : WarpDeformer) (vs : List (ℚ × ℚ)),
        2 ≤ d.cols → 2 ≤ d.rows → 0 < d.bbox.w → 0 < d.bbox.h →
        d.apply vs 0 = vs.map (fun p => (some p.1, some p.2))) ∧
    (∀ (r : RotateDeformer) (vs : List (ℝ × ℝ)), r.apply vs 0 = vs) := by
  constructor
  · intro d vs hc hr _hw _hh
    simp only [WarpDeformer.apply]
    apply List.map_congr_left
    intro v _hv
    exact warpVertex_zero_id d.cols d.rows d.bbox d.mode v hc hr
  · intro r vs
    simp only [RotateDeformer.apply, zero_mul, Real.cos_zero, Real.sin_zero, mul_one, mul_zero,
      sub_zero, add_zero]
    have h1 : ∀ a b : ℝ, a + (b - a) = b := fun a b => by ring
    simp [h1]

theorem deformer_identity_at_zero_witness :
    (⟨2, 2, ⟨0, 0, 1, 1⟩, .stretch_bottom⟩ : WarpDeformer).apply [(0, 0), (1/2, 1/3)] 0 =
      [(some 0, some 0), (some (1/2), some (1/3))] := by
  have h := deformer_identity_at_zero.1
    ⟨2, 2, ⟨0, 0, 1, 1⟩, .stretch_bottom⟩ [(0, 0), (1/2, 1/3)]
    (by norm_num) (by norm_num) (by norm_num) (by norm_num)
  rw [h]
  rfl

theorem cellIdx_div (cols row col : ℕ) (hcol : col < cols) : (row * cols + col) / cols = row := by
  have h1 : row * cols + col = col + cols * row := by ring
  rw [h1, Nat.add_mul_div_left _ _ (by omega : 0 < cols)]
  rw [Nat.div_eq_of_lt hcol, Nat.zero_add]

theorem cellIdx_mod (cols row col : ℕ) (hcol : col < cols) : (row * cols + col) % cols = col := by
  have h1 : row * cols + col = col + cols * row := by ring
  rw [h1, Nat.add_mul_mod_self_left, Nat.mod_eq_of_lt hcol]

/-- Claim C6: squeeze_center offsets at t = 1 for any grid with at least two
rows: zero x-offset everywhere; the y-offset of every control point in row r
is (1 - 2 * (r / (rows - 1))) * (0.25 * h) — linear in the normalized row
position — which is +0.25 * h for the whole top row and -0.25 * h for the
whole bottom row (equal magnitude, opposite sign). -/
theorem squeeze_center_t1_offsets :
    ∀ (cols rows row col : ℕ) (bb : BBox), 2 ≤ rows → row < rows → col < cols →
      (computeWarpOffsets cols rows bb .squeeze_center 1)[(row * cols + col) * 2]? = some 0 ∧
      (computeWarpOffsets cols rows bb .squeeze_center 1)[(row * cols + col) * 2 + 1]? =
        some ((1 - 2 * ((row : ℚ) / ((rows : ℚ) - 1))) * (bb.h * (1/4))) ∧
      (row = 0 →
        (computeWarpOffsets cols rows bb .squeeze_center 1)[(row * cols + col) * 2 + 1]? =
          some (bb.h * (1/4))) ∧
      (row = rows - 1 →
        (computeWarpOffsets cols rows bb .squeeze_center 1)[(row * cols + col) * 2 + 1]? =
          some (-(bb.h * (1/4)))) := by
  intro cols rows row col bb hr hrow hcol
  have hidx : row * cols + col < rows * cols := by
    calc row * cols + col < row * cols + cols := by omega
    _ = (row + 1) * cols := by ring
    _ ≤ rows * cols := Nat.mul_le_mul_right _ (by omega)
  have hcomm : cols * rows * 2 = rows * cols * 2 := by ring
  have h0 : (row * cols + col) * 2 < cols * rows * 2 := by rw [hcomm]; linarith [hidx]
  have h1 : (row * cols + col) * 2 + 1 < cols * rows * 2 := by rw [hcomm]; linarith [hidx]
  have hx : (computeWarpOffsets cols rows bb .squeeze_center 1)[(row * cols + col) * 2]? =
      some 0 := by
    rw [computeWarpOffsets_getElem? _ _ _ _ _ _ h0]
    simp [Nat.mul_mod_left]
  have hy : (computeWarpOffsets cols rows bb .squeeze_center 1)[(row * cols + col) * 2 + 1]? =
      some ((1 - 2 * ((row : ℚ) / ((rows : ℚ) - 1))) * (bb.h * (1/4))) := by
    rw [computeWarpOffsets_getElem? _ _ _ _ _ _ h1]
    have hm : ((row * cols + col) * 2 + 1) % 2 = 1 := by
      rw [Nat.add_mod, Nat.mul_mod_left]
    have hd : ((row * cols + col) * 2 + 1) / 2 = row * cols + col := by
      generalize row * cols + col = k
      omega
    rw [hm, hd, if_pos rfl, cellIdx_div cols row col hcol, cellIdx_mod cols row col hcol]
    simp only [modeOffsetY, squeezeCenter]
    rw [if_pos (by omega : rows > 1)]
    congr 1
    ring
  refine ⟨hx, hy, ?_, ?_⟩
  · intro h2
    subst h2
    rw [hy]
    norm_num
  · intro h2
    have hcast : ((row : ℚ)) = (rows : ℚ) - 1 := by
      subst h2
      push_cast [Nat.cast_sub (by omega : 1 ≤ rows)]
      ring
    have hgt : (1 : ℚ) < (rows : ℚ) := by exact_mod_cast (by omega : 1 < rows)
    have hne : (rows : ℚ) - 1 ≠ 0 := sub_ne_zero.mpr (ne_of_gt hgt)
    rw [hy, hcast, div_self hne]
    congr 1
    ring

-- ============================================================
-- Theorems: physics chain (claims C3, C8)
-- ============================================================

theorem constrainPts_getD_zero (L : ℝ) (pts : List (ℝ × ℝ)) (i : ℕ) :
    (constrainPts L pts i (i + 1)).getD 0 (0, 0) = pts.getD 0 (0, 0) := by
  simp only [constrainPts]
  split_ifs with h1 h2 h3
  · rfl
  · subst h2
    rw [List.getD_eq_getElem?_getD, List.getElem?_set_ne (by omega : 0 + 1 ≠ 0)]
    exact (List.getD_eq_getElem?_getD _ _ _).symm
  · exact h3.elim
  · rw [List.getD_eq_getElem?_getD, List.getElem?_set_ne (by omega : i + 1 ≠ 0),
      List.getElem?_set_ne h2]
    exact (List.getD_eq_getElem?_getD _ _ _).symm

theorem foldl_constrain_getD_zero (L : ℝ) (l : List ℕ) (pts : List (ℝ × ℝ)) :
    (l.foldl (fun p i => constrainPts L p i (i + 1)) pts).getD 0 (0, 0) =
      pts.getD 0 (0, 0) := by
  induction l generalizing pts with
  | nil => rfl
  | cons a l ih => rw [List.foldl_cons, ih, constrainPts_getD_zero]

theorem relax_getD_zero (L : ℝ) (segs : ℕ) (iters : List ℕ) (pts : List (ℝ × ℝ)) :
    (iters.foldl (fun p _ => (List.range segs).foldl
        (fun q i => constrainPts L q i (i + 1)) p) pts).getD 0 (0, 0) =
      pts.getD 0 (0, 0) := by
  induction iters generalizing pts with
  | nil => rfl
  | cons a l ih => rw [List.foldl_cons, ih, foldl_constrain_getD_zero]

/-- Claim C3: after PhysicsChain.update, point 0 is exactly the supplied
anchor (first conjunct, for any well-formed chain state); every distance
constraint over an adjacent pair (i, i+1), as run by each of the 5
relaxation iterations, leaves point 0 where it was (second conjunct); and
the constraint on the pair (0, 1) with non-degenerate distance moves only
the non-anchor point 1, by the full correction (dist - restLength) / dist
along the connecting vector, instead of each endpoint moving half of it
(third conjunct). -/
theorem physics_anchor_pinned :
    (∀ (ch : PhysicsChain) (dt : ℝ) (anchorPos : ℝ × ℝ),
        ch.points.length = ch.segments + 1 →
        (ch.update dt anchorPos).points.getD 0 (0, 0) = anchorPos) ∧
    (∀ (L : ℝ) (pts : List (ℝ × ℝ)) (i : ℕ),
        (constrainPts L pts i (i + 1)).getD 0 (0, 0) = pts.getD 0 (0, 0)) ∧
    (∀ (L px py qx qy : ℝ) (rest : List (ℝ × ℝ)),
        ¬ Real.sqrt ((qx - px) * (qx - px) + (qy - py) * (qy - py)) < 1e-10 →
        constrainPts L ((px, py) :: (qx, qy) :: rest) 0 1 =
          (px, py) ::
            (qx - (qx - px) *
              ((Real.sqrt ((qx - px) * (qx - px) + (qy - py) * (qy - py)) - L) /
                Real.sqrt ((qx - px) * (qx - px) + (qy - py) * (qy - py))),
             qy - (qy - py) *
              ((Real.sqrt ((qx - px) * (qx - px) + (qy - py) * (qy - py)) - L) /
                Real.sqrt ((qx - px) * (qx - px) + (qy - py) * (qy - py)))) :: rest) := by
  refine ⟨?_, constrainPts_getD_zero, ?_⟩
  · intro ch dt anchorPos hlen
    simp only [PhysicsChain.update]
    rw [relax_getD_zero]
    cases hp : ch.points with
    | nil => rw [hp] at hlen; simp at hlen
    | cons a l =>
      simp [List.getD_cons_zero]
  · intro L px py qx qy rest hdist
    simp only [constrainPts, List.getD_cons_zero, List.getD_cons_succ]
    rw [if_neg hdist]
    have hset : ∀ v : ℝ × ℝ, ((px, py) :: (qx, qy) :: rest).set 1 v = (px, py) :: v :: rest :=
      fun v => rfl
    simp only [if_true, hset, List.cons.injEq, Prod.mk.injEq, and_true, true_and]
    constructor <;> ring

theorem physics_anchor_pinned_witness :
    ((⟨1, 1, 9/10, (0, 200), [(0, 0), (0, 1)], [(0, 0), (0, 1)]⟩ : PhysicsChain).update
        0 (5, 6)).points.getD 0 (0, 0) = (5, 6) ∧
    constrainPts 1 [((0 : ℝ), (0 : ℝ)), (3, 4)] 0 1 = [(0, 0), (3/5, 4/5)] := by
  have hs : Real.sqrt (((3 : ℝ) - 0) * ((3 : ℝ) - 0) + ((4 : ℝ) - 0) * ((4 : ℝ) - 0)) = 5 := by
    have h25 : ((3 : ℝ) - 0) * ((3 : ℝ) - 0) + ((4 : ℝ) - 0) * ((4 : ℝ) - 0) = 5 ^ 2 := by
      norm_num
    rw [h25, Real.sqrt_sq (by norm_num : (0 : ℝ) ≤ 5)]
  constructor
  · exact physics_anchor_pinned.1 _ 0 (5, 6) rfl
  · have h := physics_anchor_pinned.2.2 1 0 0 3 4 [] (by rw [hs]; norm_num)
    rw [hs] at h
    rw [h]
    norm_num

theorem jsAtan2_pos_of_pos {y x : ℝ} (hy : 0 < y) : 0 < jsAtan2 y x := by
  unfold jsAtan2
  split_ifs with h1 h2 h3
  · simpa [Real.arctan_zero] using Real.arctan_strictMono (div_pos hy h1)
  · have ha := Real.neg_pi_div_two_lt_arctan (y / x)
    have hpi := Real.pi_pos
    linarith
  · exact absurd (le_of_lt hy) h3
  · have hpi := Real.pi_pos
    linarith

theorem jsAtan2_neg_of_neg {y x : ℝ} (hy : y < 0) : jsAtan2 y x < 0 := by
  unfold jsAtan2
  split_ifs with h1 h2 h3 h4
  · simpa [Real.arctan_zero] using Real.arctan_strictMono (div_neg_of_neg_of_pos hy h1)
  · linarith
  · have ha := Real.arctan_lt_pi_div_two (y / x)
    have hpi := Real.pi_pos
    linarith
  · linarith
  · have hpi := Real.pi_pos
    linarith

theorem jsAtan2_zero_pos {x : ℝ} (hx : 0 < x) : jsAtan2 0 x = 0 := by
  unfold jsAtan2
  rw [if_pos hx, zero_div, Real.arctan_zero]

/-- Claim C8: getAngle equals atan2(dx, dy) converted to degrees, where
(dx, dy) points from the first to the last chain point (first conjunct, an
exact description of the computation); a last point vertically below the
first (dx = 0, dy > 0) yields exactly 0 degrees; a displacement to positive
x yields a positive angle and to negative x a negative angle, whatever dy
is. -/
theorem getAngle_spec :
    ∀ ch : PhysicsChain,
      (ch.getAngle = jsAtan2
          ((ch.points.getD ch.segments (0, 0)).1 - (ch.points.getD 0 (0, 0)).1)
          ((ch.points.getD ch.segments (0, 0)).2 - (ch.points.getD 0 (0, 0)).2) *
          (180 / Real.pi)) ∧
      ((ch.points.getD ch.segments (0, 0)).1 - (ch.points.getD 0 (0, 0)).1 = 0 →
        0 < (ch.points.getD ch.segments (0, 0)).2 - (ch.points.getD 0 (0, 0)).2 →
        ch.getAngle = 0) ∧
      (0 < (ch.points.getD ch.segments (0, 0)).1 - (ch.points.getD 0 (0, 0)).1 →
        0 < ch.getAngle) ∧
      ((ch.points.getD ch.segments (0, 0)).1 - (ch.points.getD 0 (0, 0)).1 < 0 →
        ch.getAngle < 0) := by
  intro ch
  have hdeg : 0 < 180 / Real.pi := by
    have := Real.pi_pos
    positivity
  refine ⟨rfl, ?_, ?_, ?_⟩
  · intro hdx hdy
    show jsAtan2 _ _ * (180 / Real.pi) = 0
    rw [hdx, jsAtan2_zero_pos hdy, zero_mul]
  · intro hdx
    exact mul_pos (jsAtan2_pos_of_pos hdx) hdeg
  · intro hdx
    exact mul_neg_of_neg_of_pos (jsAtan2_neg_of_neg hdx) hdeg

theorem getAngle_spec_witness :
    (⟨1, 5, 9/10, (0, 200), [(0, 0), (0, 5)], [(0, 0), (0, 5)]⟩ : PhysicsChain).getAngle = 0 ∧
    0 < (⟨1, 5, 9/10, (0, 200), [(0, 0), (3, 4)], [(0, 0), (3, 4)]⟩ : PhysicsChain).getAngle := by
  constructor
  · exact (getAngle_spec _).2.1 (by norm_num [List.getD_cons_zero, List.getD_cons_succ])
      (by norm_num [List.getD_cons_zero, List.getD_cons_succ])
  · exact (getAngle_spec _).2.2.1 (by norm_num [List.getD_cons_zero, List.getD_cons_succ])

theorem squeeze_center_t1_offsets_witness :
    (computeWarpOffsets 2 3 bbox10 .squeeze_center 1)[1]? = some (bbox10.h * (1/4)) ∧
    (computeWarpOffsets 2 3 bbox10 .squeeze_center 1)[(2 * 2 + 1) * 2 + 1]? =
      some (-(bbox10.h * (1/4))) := by
  have h0 := squeeze_center_t1_offsets 2 3 0 0 bbox10 (by norm_num) (by norm_num) (by norm_num)
  have h2 := squeeze_center_t1_offsets 2 3 2 1 bbox10 (by norm_num) (by norm_num) (by norm_num)
  exact ⟨h0.2.2.1 rfl, h2.2.2.2 rfl⟩

-- ============================================================
-- Theorems: mesh generation (claims C4, C5, C7, C9, C10)
-- ============================================================

/-- Claim C9: interior sampling is deterministic.  The sampling function is
modelled with an explicit ambient RNG-state parameter; because the source
re-seeds its generator to the constant 42 on every call, the result is
independent of that state, so two calls with identical mask, density and
contour inputs return identical point sequences, and generateMesh returns
identical meshes for identical mask and bounding box. -/
theorem sampling_deterministic :
    (∀ (s1 s2 : ℕ) (m : Mask) (density : ℚ) (cps : Option (List (ℤ × ℤ))),
        sampleInterior s1 m density cps = sampleInterior s2 m density cps) ∧
    (∀ (delaunay : List (ℚ × ℚ) → List (ℕ × ℕ × ℕ)) (s1 s2 : ℕ) (m : Mask) (bb : BBox),
        generateMesh delaunay s1 m bb = generateMesh delaunay s2 m bb) :=
  ⟨fun _ _ _ _ _ => rfl, fun _ _ _ _ _ => rfl⟩

/-- Claim C4: generateMesh fails exactly when the traced boundary has fewer
than 3 points, and returns a mesh (never raises) whenever the boundary has
at least 3 points, for every triangulator, RNG state, mask and bounding box
and regardless of how validation turns out. -/
theorem generateMesh_error_iff_no_contour :
    ∀ (delaunay : List (ℚ × ℚ) → List (ℕ × ℕ × ℕ)) (s : ℕ) (m : Mask) (bb : BBox),
      ((∃ e, generateMesh delaunay s m bb = Except.error e) ↔
        (extractContour m).length < 3) ∧
      ((∃ mesh, generateMesh delaunay s m bb = Except.ok mesh) ↔
        3 ≤ (extractContour m).length) := by
  intro d s m bb
  unfold generateMesh
  dsimp only
  split_ifs with h
  · exact ⟨⟨fun _ => h, fun _ => ⟨_, rfl⟩⟩,
      ⟨fun ⟨msh, hm⟩ => absurd hm (by simp), fun hge => absurd h (by omega)⟩⟩
  · exact ⟨⟨fun ⟨e, he⟩ => absurd he (by simp), fun hlt => absurd hlt h⟩,
      ⟨fun _ => by omega, fun _ => ⟨_, rfl⟩⟩⟩

theorem computeUVs_length (vs : List (ℚ × ℚ)) (bb : BBox) :
    (computeUVs vs bb).length = vs.length := by
  simp [computeUVs]

theorem computeUVs_bounds (vs : List (ℚ × ℚ)) (bb : BBox) :
    ∀ uv ∈ computeUVs vs bb, 0 ≤ uv.1 ∧ uv.1 ≤ 1 ∧ 0 ≤ uv.2 ∧ uv.2 ≤ 1 := by
  intro uv huv
  simp only [computeUVs, List.mem_map] at huv
  obtain ⟨v, _hv, rfl⟩ := huv
  exact ⟨le_max_left _ _, max_le (by norm_num) (min_le_left _ _),
    le_max_left _ _, max_le (by norm_num) (min_le_left _ _)⟩

theorem triangulate_tri_lt (delaunay : List (ℚ × ℚ) → List (ℕ × ℕ × ℕ))
    (hdel : ∀ pts t, t ∈ delaunay pts →
      t.1 < pts.length ∧ t.2.1 < pts.length ∧ t.2.2 < pts.length)
    (b : List (ℤ × ℤ)) (ips : List (ℚ × ℚ)) (mm : Option Mask) :
    ∀ t ∈ (triangulate delaunay b ips mm).2,
      t.1 < (triangulate delaunay b ips mm).1.length ∧
      t.2.1 < (triangulate delaunay b ips mm).1.length ∧
      t.2.2 < (triangulate delaunay b ips mm).1.length := by
  intro t ht
  unfold triangulate at ht ⊢
  dsimp only at ht ⊢
  split_ifs at ht ⊢ with h
  · simp at ht
  · exact hdel _ _ (List.mem_of_mem_filter ht)

theorem attemptMesh_invariants (delaunay : List (ℚ × ℚ) → List (ℕ × ℕ × ℕ))
    (hdel : ∀ pts t, t ∈ delaunay pts →
      t.1 < pts.length ∧ t.2.1 < pts.length ∧ t.2.2 < pts.length)
    (s : ℕ) (m : Mask) (bb : BBox) (sp : List (ℤ × ℤ)) (dens : ℚ) :
    (attemptMesh delaunay s m bb sp dens).uvs.length =
      (attemptMesh delaunay s m bb sp dens).vertices.length ∧
    (∀ uv ∈ (attemptMesh delaunay s m bb sp dens).uvs,
      0 ≤ uv.1 ∧ uv.1 ≤ 1 ∧ 0 ≤ uv.2 ∧ uv.2 ≤ 1) ∧
    (∀ t ∈ (attemptMesh delaunay s m bb sp dens).triangles,
      t.1 < (attemptMesh delaunay s m bb sp dens).vertices.length ∧
      t.2.1 < (attemptMesh delaunay s m bb sp dens).vertices.length ∧
      t.2.2 < (attemptMesh delaunay s m bb sp dens).vertices.length) := by
  unfold attemptMesh
  dsimp only
  exact ⟨computeUVs_length _ _, computeUVs_bounds _ _, triangulate_tri_lt delaunay hdel _ _ _⟩

theorem genLoop_isAttempt (delaunay : List (ℚ × ℚ) → List (ℕ × ℕ × ℕ)) (s : ℕ) (m : Mask)
    (bb : BBox) (sp : List (ℤ × ℤ)) :
    ∀ (k : ℕ) (dens : ℚ), ∃ d2,
      genLoop delaunay s m bb sp k dens = attemptMesh delaunay s m bb sp d2 := by
  intro k
  induction k with
  | zero =>
    intro dens
    refine ⟨dens, ?_⟩
    unfold genLoop
    dsimp only
    split_ifs <;> rfl
  | succ n ih =>
    intro dens
    unfold genLoop
    dsimp only
    split_ifs with h1 h2 h3
    · exact ⟨dens, rfl⟩
    · exact ih _
    · exact ih _
    · exact ⟨dens, rfl⟩

/-- Claim C5: whenever generateMesh returns a mesh — including one returned
after validation still failed on the last retry — the UV list has the same
length as the vertex list, every UV component lies in [0, 1], and every
index of every triangle is below the vertex count.  The hypothesis on the
triangulator is the documented Delaunator contract: returned indices are in
range of the input point list. -/
theorem generateMesh_mesh_invariants :
    ∀ (delaunay : List (ℚ × ℚ) → List (ℕ × ℕ × ℕ)) (s : ℕ) (m : Mask) (bb : BBox)
      (mesh : Mesh),
      (∀ pts t, t ∈ delaunay pts →
        t.1 < pts.length ∧ t.2.1 < pts.length ∧ t.2.2 < pts.length) →
      0 < bb.w → 0 < bb.h →
      generateMesh delaunay s m bb = Except.ok mesh →
      mesh.uvs.length = mesh.vertices.length ∧
      (∀ uv ∈ mesh.uvs, 0 ≤ uv.1 ∧ uv.1 ≤ 1 ∧ 0 ≤ uv.2 ∧ uv.2 ≤ 1) ∧
      (∀ t ∈ mesh.triangles, t.1 < mesh.vertices.length ∧
        t.2.1 < mesh.vertices.length ∧ t.2.2 < mesh.vertices.length) := by
  intro d s m bb mesh hdel _hw _hh hok
  unfold generateMesh at hok
  dsimp only at hok
  split_ifs at hok with h
  have hmesh : genLoop d s m bb (simplifyContour (extractContour m) DEFAULT_EPSILON) 2
      DEFAULT_DENSITY = mesh := by
    rwa [Except.ok.injEq] at hok
  obtain ⟨d2, hd2⟩ := genLoop_isAttempt d s m bb
    (simplifyContour (extractContour m) DEFAULT_EPSILON) 2 DEFAULT_DENSITY
  rw [← hmesh, hd2]
  exact attemptMesh_invariants d hdel s m bb _ d2

theorem generateMesh_mesh_invariants_witness :
    ((generateMesh emptyDelaunay 0 solidRowMask bbox10).toOption.getD meshDefault).uvs.length =
      ((generateMesh emptyDelaunay 0 solidRowMask bbox10).toOption.getD
        meshDefault).vertices.length ∧
    (∀ uv ∈ ((generateMesh emptyDelaunay 0 solidRowMask bbox10).toOption.getD meshDefault).uvs,
      0 ≤ uv.1 ∧ uv.1 ≤ 1 ∧ 0 ≤ uv.2 ∧ uv.2 ≤ 1) ∧
    (∀ t ∈ ((generateMesh emptyDelaunay 0 solidRowMask
        bbox10).toOption.getD meshDefault).triangles,
      t.1 < ((generateMesh emptyDelaunay 0 solidRowMask
        bbox10).toOption.getD meshDefault).vertices.length ∧
      t.2.1 < ((generateMesh emptyDelaunay 0 solidRowMask
        bbox10).toOption.getD meshDefault).vertices.length ∧
      t.2.2 < ((generateMesh emptyDelaunay 0 solidRowMask
        bbox10).toOption.getD meshDefault).vertices.length) := by
  have hok : ∃ msh, generateMesh emptyDelaunay 0 solidRowMask bbox10 = Except.ok msh := by
    unfold generateMesh
    dsimp only
    rw [if_neg (by decide)]
    exact ⟨_, rfl⟩
  obtain ⟨msh, hmsh⟩ := hok
  have hget : (generateMesh emptyDelaunay 0 solidRowMask bbox10).toOption.getD meshDefault =
      msh := by
    rw [hmsh]
    rfl
  rw [hget]
  exact generateMesh_mesh_invariants emptyDelaunay 0 solidRowMask bbox10 msh
    (by simp [emptyDelaunay]) (by norm_num [bbox10]) (by norm_num [bbox10]) hmsh

/-- Claim C7: the retry policy of generateMesh.  For any attempt state:
a valid attempt is returned as-is; an invalid attempt whose errors include
the too-few-vertices message retries with density max(2, density * 0.6); one
whose errors include too-many (and not too-few) retries with density * 1.5;
any other failing attempt stops retrying and is returned; with no retries
left the attempt mesh is returned regardless; and on the success path
generateMesh runs this loop with 2 retries after the first attempt (3
attempts in total), starting from the default density 8. -/
theorem generateMesh_retry_policy :
    ∀ (delaunay : List (ℚ × ℚ) → List (ℕ × ℕ × ℕ)) (s : ℕ) (m : Mask) (bb : BBox)
      (sp : List (ℤ × ℤ)) (dens : ℚ) (k : ℕ),
      (validateMesh (attemptMesh delaunay s m bb sp dens) = [] →
        genLoop delaunay s m bb sp k dens = attemptMesh delaunay s m bb sp dens) ∧
      (validateMesh (attemptMesh delaunay s m bb sp dens) ≠ [] →
        (validateMesh (attemptMesh delaunay s m bb sp dens)).any MeshError.isTooFew = true →
        genLoop delaunay s m bb sp (k + 1) dens =
          genLoop delaunay s m bb sp k (max 2 (dens * (3/5)))) ∧
      (validateMesh (attemptMesh delaunay s m bb sp dens) ≠ [] →
        (validateMesh (attemptMesh delaunay s m bb sp dens)).any MeshError.isTooFew = false →
        (validateMesh (attemptMesh delaunay s m bb sp dens)).any MeshError.isTooMany = true →
        genLoop delaunay s m bb sp (k + 1) dens =
          genLoop delaunay s m bb sp k (dens * (3/2))) ∧
      (validateMesh (attemptMesh delaunay s m bb sp dens) ≠ [] →
        (validateMesh (attemptMesh delaunay s m bb sp dens)).any MeshError.isTooFew = false →
        (validateMesh (attemptMesh delaunay s m bb sp dens)).any MeshError.isTooMany = false →
        genLoop delaunay s m bb sp (k + 1) dens = attemptMesh delaunay s m bb sp dens) ∧
      (genLoop delaunay s m bb sp 0 dens = attemptMesh delaunay s m bb sp dens ∨
        validateMesh (attemptMesh delaunay s m bb sp dens) = []) ∧
      (3 ≤ (extractContour m).length →
        generateMesh delaunay s m bb = Except.ok (genLoop delaunay s m bb
          (simplifyContour (extractContour m) DEFAULT_EPSILON) 2 DEFAULT_DENSITY)) := by
  intro d s m bb sp dens k
  refine ⟨?_, ?_, ?_, ?_, ?_, ?_⟩
  · intro hval
    cases k <;> (conv_lhs => unfold genLoop) <;> dsimp only <;> rw [if_pos hval]
  · intro hne htf
    conv_lhs => unfold genLoop
    dsimp only
    rw [if_neg hne, if_pos htf]
  · intro hne htf htm
    conv_lhs => unfold genLoop
    dsimp only
    rw [if_neg hne, htf, if_neg (by simp), if_pos htm]
  · intro hne htf htm
    conv_lhs => unfold genLoop
    dsimp only
    rw [if_neg hne, htf, if_neg (by simp), htm, if_neg (by simp)]
  · by_cases hval : validateMesh (attemptMesh d s m bb sp dens) = []
    · exact Or.inr hval
    · refine Or.inl ?_
      conv_lhs => unfold genLoop
      dsimp only
      rw [if_neg hval]
  · intro hge
    unfold generateMesh
    dsimp only
    rw [if_neg (by omega)]

theorem qRange_one_four : qRange 1 ((8 : ℚ) * (1/2)) = [(0 : ℚ)] := by
  have hc : ⌈(1 : ℚ) / ((8 : ℚ) * (1/2))⌉ = 1 := by
    rw [Int.ceil_eq_iff]
    constructor <;> norm_num
  unfold qRange
  rw [if_pos (by norm_num)]
  rw [show ((1 : ℕ) : ℚ) = (1 : ℚ) by norm_num, hc]
  simp [List.range_succ]

theorem sampleInterior_clearMask : sampleInterior 0 clearMask 8 (some triPts) = [] := by
  have hsolid : ∀ x y : ℤ, isSolid clearMask x y = false := by
    intro x y
    simp [isSolid, clearMask, ALPHA_THRESHOLD]
  unfold sampleInterior
  dsimp only
  rw [show clearMask.height = 1 from rfl, show clearMask.width = 1 from rfl, qRange_one_four]
  simp only [List.foldl_cons, List.foldl_nil]
  simp [hsolid, ite_self]

theorem triangulate_clearMask : triangulate emptyDelaunay triPts [] (some clearMask) =
    (triPts.map intPt, []) := by
  unfold triangulate
  dsimp only
  rw [if_neg (by simp [triPts])]
  simp [emptyDelaunay]

theorem attemptMesh_clearMask : attemptMesh emptyDelaunay 0 clearMask bbox10 triPts 8 =
    { vertices := triPts.map intPt, uvs := computeUVs (triPts.map intPt) bbox10,
      triangles := [] } := by
  unfold attemptMesh
  rw [sampleInterior_clearMask]
  dsimp only
  rw [triangulate_clearMask]

theorem validateMesh_clearMask_attempt :
    validateMesh (attemptMesh emptyDelaunay 0 clearMask bbox10 triPts 8) =
      [MeshError.tooFew 3] := by
  rw [attemptMesh_clearMask]
  unfold validateMesh
  dsimp only
  have hlen : (triPts.map intPt).length = 3 := by simp [triPts]
  have huv : (computeUVs (triPts.map intPt) bbox10).countP (fun uv =>
      decide (uv.1 < -(1/100) ∨ uv.1 > 101/100 ∨ uv.2 < -(1/100) ∨ uv.2 > 101/100)) = 0 := by
    rw [List.countP_eq_zero]
    intro uv huv
    have hb := computeUVs_bounds (triPts.map intPt) bbox10 uv huv
    simp only [decide_eq_true_eq, not_or, not_lt]
    refine ⟨by linarith [hb.1], by linarith [hb.2.1], by linarith [hb.2.2.1],
      by linarith [hb.2.2.2]⟩
  rw [hlen, huv]
  norm_num [MIN_VERTICES, MAX_VERTICES]

theorem generateMesh_retry_policy_witness :
    genLoop emptyDelaunay 0 clearMask bbox10 triPts 2 8 =
      genLoop emptyDelaunay 0 clearMask bbox10 triPts 1 (max 2 (8 * (3/5))) := by
  have h := (generateMesh_retry_policy emptyDelaunay 0 clearMask bbox10 triPts 8 1).2.1
  exact h (by rw [validateMesh_clearMask_attempt]; simp)
    (by rw [validateMesh_clearMask_attempt]; simp [MeshError.isTooFew])

theorem traceLoop_length_le (m : Mask) (sx sy : ℤ) :
    ∀ (fuel : ℕ) (cx cy : ℤ) (dir : ℕ) (visited acc : List (ℤ × ℤ)),
      (traceLoop m sx sy fuel cx cy dir visited acc).length ≤ acc.length + max 1 fuel := by
  intro fuel
  induction fuel using Nat.strong_induction_on with
  | _ fuel ih =>
    intro cx cy dir visited acc
    rcases fuel with _ | fuel'
    · conv_lhs => unfold traceLoop
      dsimp only
      by_cases hmem : (cx, cy) ∈ visited
      · simp only [hmem, ite_true]
        split
        · omega
        · split_ifs <;> omega
      · simp only [hmem, ite_false]
        split
        · simp only [List.length_append, List.length_cons, List.length_nil]
          omega
        · split_ifs <;>
            (simp only [List.length_append, List.length_cons, List.length_nil]; omega)
    · conv_lhs => unfold traceLoop
      dsimp only
      by_cases hmem : (cx, cy) ∈ visited
      · simp only [hmem, ite_true]
        split
        · omega
        · split_ifs with hstart hf0
          · omega
          · omega
          · refine le_trans (ih fuel' (by omega) _ _ _ _ _) ?_
            omega
      · simp only [hmem, ite_false]
        split
        · simp only [List.length_append, List.length_cons, List.length_nil]
          omega
        · split_ifs with hstart hf0
          · simp only [List.length_append, List.length_cons, List.length_nil]
            omega
          · simp only [List.length_append, List.length_cons, List.length_nil]
            omega
          · refine le_trans (ih fuel' (by omega) _ _ _ _ _) ?_
            simp only [List.length_append, List.length_cons, List.length_nil]
            omega

/-- Claim C10: extractContour terminates on every mask by construction (it
is a total function whose tracing loop carries the step budget
2 x width x height as fuel, stopping earlier when the start pixel is
revisited or no solid neighbor exists); the traced contour can therefore
never exceed 2 x (width x height) points on a mask with nonzero area
(second conjunct); and a mask with no solid pixel adjacent to an empty
pixel (for example a fully transparent mask) yields the empty sequence
(first conjunct). -/
theorem extractContour_terminates_bounded :
    (∀ m : Mask,
        (∀ x y : ℤ, isSolid m x y = true → hasEmptyNeighbor m x y = false) →
        extractContour m = []) ∧
    (∀ m : Mask, 1 ≤ m.width * m.height →
        (extractContour m).length ≤ m.width * m.height * 2) := by
  constructor
  · intro m hno
    unfold extractContour
    have hfind : findStart m = none := by
      unfold findStart
      rw [List.find?_eq_none]
      intro p _hp
      simp only [Bool.and_eq_true, not_and]
      intro hs
      simp [hno p.1 p.2 hs]
    rw [hfind]
  · intro m harea
    unfold extractContour
    cases hfs : findStart m with
    | none => simp
    | some s =>
      have hb := traceLoop_length_le m s.1 s.2 (m.width * m.height * 2) s.1 s.2 7 [] []
      have hmax : max 1 (m.width * m.height * 2) = m.width * m.height * 2 :=
        max_eq_right (le_trans harea (Nat.le_mul_of_pos_right _ (by norm_num)))
      rw [hmax] at hb
      simpa using hb

theorem extractContour_terminates_bounded_witness :
    extractContour clearMask2 = [] ∧ (extractContour clearMask2).length ≤ 8 := by
  constructor
  · exact extractContour_terminates_bounded.1 clearMask2
      (by intro x y hxy; simp [isSolid, clearMask2, ALPHA_THRESHOLD] at hxy)
  · exact extractContour_terminates_bounded.2 clearMask2 (by norm_num [clearMask2])

theorem generateMesh_error_iff_no_contour_witness :
    ∃ e, generateMesh emptyDelaunay 0 clearMask bbox10 = Except.error e :=
  (generateMesh_error_iff_no_contour emptyDelaunay 0 clearMask bbox10).1.mpr (by decide)

theorem sampling_deterministic_witness :
    sampleInterior 1 clearMask 8 (some triPts) = sampleInterior 2 clearMask 8 (some triPts) :=
  sampling_deterministic.1 1 2 clearMask 8 (some triPts)
